import Mathlib

/-!
# camel-k: the jib build task and the IntegrationKit controller

A shallow embedding of `pkg/builder/jib.go` and of
`pkg/controller/integrationkit/integrationkit_controller.go`.

Go functions that return a pair `(value, error)` are embedded as functions
returning a pair whose second component is `none` for a `nil` error.
Functions and constants of packages whose sources are not part of the
development (the operating system, `util`, `registry`, `jib`, the cluster
client, `platform`, `digest`, the `v1` types) are fields of a record of
collaborators, named as in the Go code, so every theorem holds for every
behaviour of them.
-/

namespace CamelK

/-- Go `error` values, carried by their message. -/
abbrev Err := String

/-! ## pkg/builder/jib.go -/

namespace builder

/-- Modelled from the spec: `v1.BuildStatus` is declared outside the sources; the spec
gives it the fields `{baseImage, rootImage, image, digest, error}`, `error` being set
on a failed task and unset otherwise. -/
structure BuildStatus where
  BaseImage : String := ""
  RootImage : String := ""
  Image : String := ""
  Digest : String := ""
  Error : Option Err := none
deriving DecidableEq, Repr

/-- Modelled from the spec: `BuildStatus.Failed` is declared outside the sources; the
spec says a failure is "recorded on BuildStatus with the captured error". The receiver
is a value, so the other fields are carried over as they are. -/
def BuildStatus.Failed (status : BuildStatus) (err : Err) : BuildStatus :=
  { status with Error := some err }

/-- The `Registry` part of a jib task specification. -/
structure RegistrySpec where
  Address : String := ""
  Secret : String := ""
  Insecure : Bool := false
deriving DecidableEq, Repr

/-- The fields of `v1.JibTask` read by `Do`; `ImagePlatforms` is `none` for a nil slice. -/
structure JibTask where
  BaseImage : String := ""
  ContextDir : String := ""
  Image : String := ""
  Registry : RegistrySpec := {}
  ImagePlatforms : Option (List String) := none
deriving DecidableEq, Repr

/-- The fields of `v1.Build` read by `Do`. -/
structure Build where
  Namespace : String := ""
  Status : BuildStatus := {}
deriving DecidableEq, Repr

/-- The receiver of `Do` (the cluster client `c` is only handed to the mount helper). -/
structure jibTask where
  build : Build
  task : JibTask
deriving DecidableEq, Repr

/-- An external command as built by `exec.CommandContext` and completed by `Do`. -/
structure Cmd where
  Path : String
  Args : List String
  Env : List String
  Dir : String
deriving DecidableEq, Repr

/-- The state of the operator process that `Do` reads and writes: the process-wide
environment, the credential directories present on disk, and the external commands
that have been run, oldest first. -/
structure Process where
  env : List (String × String) := []
  dirs : List String := []
  runs : List Cmd := []
deriving DecidableEq, Repr

/-- The collaborators of `Do` and the constants of the `jib` and `builder` packages,
none of which is defined in `jib.go`. `filepath_Join`, `strings_ReplaceAll`,
`strings_Split` and `strings_Join` are the Go library functions `filepath.Join`,
`strings.ReplaceAll`, `strings.Split` and `strings.Join`; `Unsetenv` and `RemoveAll` tell
whether `os.Unsetenv` and `os.RemoveAll` fail. -/
structure Host where
  Getwd : String × Option Err
  DirectoryExists : String → Bool × Option Err
  DirectoryEmpty : String → Bool × Option Err
  MountSecretRegistryConfig : String → String → String → String × Option Err
  ReadFile : String → String × Option Err
  RunAndLog : Cmd → Option Err
  Unsetenv : String → Option Err
  RemoveAll : String → Option Err
  filepath_Join : String → String → String
  strings_ReplaceAll : String → String → String → String
  strings_Split : String → String → List String
  strings_Join : List String → String → String
  ContextDir : String
  JibRegistryConfigEnvVar : String
  JibMavenGoal : String
  JibMavenToImageParam : String
  JibMavenFromImageParam : String
  JibMavenBaseImageCache : String
  JibMavenFromPlatforms : String
  JibMavenInsecureRegistries : String
  JibDigestFile : String

/-- The effect of a successful `os.Setenv` on the process-wide environment: a variable
that is set is overwritten where it stands, a variable that is not set is appended. -/
def Setenv (key value : String) : List (String × String) → List (String × String)
  | [] => [(key, value)]
  | kv :: env => if kv.1 = key then (key, value) :: env else kv :: Setenv key value env

/-- The effect of a successful `os.Unsetenv` on the process-wide environment. -/
def Unsetenv (key : String) (env : List (String × String)) : List (String × String) :=
  env.filter (fun kv => kv.1 ≠ key)

/-- Go `os.LookupEnv`: the value of a variable, `none` when it is not set. -/
def LookupEnv (key : String) (env : List (String × String)) : Option String :=
  env.lookup key

/-- Go `os.Environ`: the environment as `key=value` strings. -/
def Environ (env : List (String × String)) : List String :=
  env.map (fun kv => kv.1 ++ "=" ++ kv.2)

/-- Function `cleanRegistryConfig` (jib.go:166-174): unset the variable, then remove the tree;
the first failing step returns its error and skips the rest. -/
def cleanRegistryConfig (h : Host) (registryConfigDir : String) (p : Process) :
    Option Err × Process :=
  match h.Unsetenv h.JibRegistryConfigEnvVar with
  | some err => (some err, p)
  | none =>
    let p := { p with env := Unsetenv h.JibRegistryConfigEnvVar p.env }
    match h.RemoveAll registryConfigDir with
    | some err => (some err, p)
    | none => (none, { p with dirs := p.dirs.filter (fun d => d ≠ registryConfigDir) })

/-- The registry step of `Do` (jib.go:92-99): with a named secret, mount it and write the
returned path to the process-wide variable, before the mount error is looked at.
Returns `registryConfigDir`, the mount error and the process state. -/
def mountRegistryConfig (h : Host) (t : jibTask) (p : Process) :
    String × Option Err × Process :=
  if t.task.Registry.Secret ≠ "" then
    let (registryConfigDir, err) :=
      h.MountSecretRegistryConfig t.build.Namespace "jib-secret-" t.task.Registry.Secret
    let p := match err with
      | none => { p with dirs := registryConfigDir :: p.dirs }
      | some _ => p
    let p := { p with env := Setenv h.JibRegistryConfigEnvVar registryConfigDir p.env }
    (registryConfigDir, err, p)
  else
    ("", none, p)

/-- The arguments of the external build command (jib.go:107-126). -/
def mavenArgs (h : Host) (t : jibTask) (baseImage mavenDir mavenCommand : String) :
    List String :=
  let mavenArgs : List String := []
  let mavenArgs := mavenArgs ++ [h.JibMavenGoal]
  let mavenArgs := mavenArgs ++ h.strings_Split mavenCommand " "
  let mavenArgs := mavenArgs ++ ["-P", "jib"]
  let mavenArgs := mavenArgs ++ [h.JibMavenToImageParam ++ t.task.Image]
  let mavenArgs := mavenArgs ++ [h.JibMavenFromImageParam ++ baseImage]
  let mavenArgs := mavenArgs ++ [h.JibMavenBaseImageCache ++ mavenDir ++ "/jib"]
  let mavenArgs := match t.task.ImagePlatforms with
    | some platforms =>
      let platforms := h.strings_Join platforms ","
      mavenArgs ++ [h.JibMavenFromPlatforms ++ platforms]
    | none => mavenArgs
  if t.task.Registry.Insecure then
    mavenArgs ++ [h.JibMavenInsecureRegistries ++ "true"]
  else
    mavenArgs

/-- The external command of `Do` (jib.go:128-136): `./mvnw` or the value of `MAVEN_CMD`,
the whole process-wide environment plus `XDG_CONFIG_HOME`, run in `mavenDir`. -/
def mvnCommand (args : List String) (mavenDir : String) (p : Process) : Cmd :=
  let mvnCmd := match LookupEnv "MAVEN_CMD" p.env with
    | some c => c
    | none => "./mvnw"
  { Path := mvnCmd
    Args := args
    Env := Environ p.env ++ ["XDG_CONFIG_HOME=" ++ mavenDir ++ "/jib"]
    Dir := mavenDir }

/-- The effective base image (jib.go:48-51): the one on the build status, else the
one of the task. -/
def baseImage (t : jibTask) : String :=
  if t.build.Status.BaseImage = "" then t.task.BaseImage else t.build.Status.BaseImage

/-- The effective root image (jib.go:53-56). -/
def rootImage (t : jibTask) : String :=
  if t.build.Status.RootImage = "" then t.task.BaseImage else t.build.Status.RootImage

/-- The context directory (jib.go:59-70): the one of the task, else `ContextDir` under
the working directory; the error is the one of `os.Getwd`. -/
def contextDir (h : Host) (t : jibTask) : String × Option Err :=
  if t.task.ContextDir = "" then
    match h.Getwd with
    | (_, some err) => ("", some err)
    | (pwd, none) => (h.filepath_Join pwd h.ContextDir, none)
  else (t.task.ContextDir, none)

/-- Method `jibTask.Do` (jib.go:45-164), returning the build status and the process state
left behind. -/
def jibTask.Do (h : Host) (t : jibTask) (p : Process) : BuildStatus × Process :=
  let status : BuildStatus := {}
  let baseImage := baseImage t
  let status := { status with BaseImage := baseImage }
  let rootImage := rootImage t
  let status := { status with RootImage := rootImage }
  match contextDir h t with
  | (_, some err) => (status.Failed err, p)
  | (contextDir, none) =>
  match h.DirectoryExists contextDir with
  | (_, some err) => (status.Failed err, p)
  | (dirExists, none) =>
  match h.DirectoryEmpty contextDir with
  | (_, some err) => (status.Failed err, p)
  | (empty, none) =>
  if !dirExists || empty then
    ({ status with Image := baseImage }, p)
  else
  let mavenDir := h.strings_ReplaceAll contextDir h.ContextDir "maven"
  match mountRegistryConfig h t p with
  | (_, some err, p) => (status.Failed err, p)
  | (registryConfigDir, none, p) =>
  match h.ReadFile (h.filepath_Join mavenDir "MAVEN_CONTEXT") with
  | (_, some err) => (status.Failed err, p)
  | (mavenCommand, none) =>
  let cmd := mvnCommand (mavenArgs h t baseImage mavenDir mavenCommand) mavenDir p
  let p := { p with runs := p.runs ++ [cmd] }
  match h.RunAndLog cmd with
  | some myerror =>
    let (_, p) := cleanRegistryConfig h registryConfigDir p
    (status.Failed myerror, p)
  | none =>
    let status := { status with Image := t.task.Image }
    match h.ReadFile (h.filepath_Join mavenDir h.JibDigestFile) with
    | (_, some errDigest) =>
      let (_, p) := cleanRegistryConfig h registryConfigDir p
      (status.Failed errDigest, p)
    | (mavenDigest, none) =>
      let status := { status with Digest := mavenDigest }
      if registryConfigDir ≠ "" then
        match cleanRegistryConfig h registryConfigDir p with
        | (some err, p) => (status.Failed err, p)
        | (none, p) => (status, p)
      else
        (status, p)

end builder

/-! ## pkg/controller/integrationkit/integrationkit_controller.go -/

namespace integrationkit

/-- Modelled from the spec: `v1.IntegrationKitPhase` is declared outside the sources; the
spec gives `phase ∈ {None, WaitingForPlatform, Initialization, WaitingForCatalog, Ready,
Error}`. -/
inductive IntegrationKitPhase where
  | None
  | WaitingForPlatform
  | Initialization
  | WaitingForCatalog
  | Ready
  | Error
deriving DecidableEq, Repr

/-- Modelled from the spec: `v1.IntegrationPlatformPhase` is declared outside the sources;
the spec gives `phase ∈ {..., Ready}`, so every phase other than `Ready` is kept by name. -/
inductive IntegrationPlatformPhase where
  | Ready
  | Other (name : String)
deriving DecidableEq, Repr

/-- Modelled from the spec: a condition of a kit, `{kind, status, reason, message}`. -/
structure Condition where
  Kind : String
  Status : String
  Reason : String
  Message : String
deriving DecidableEq, Repr

/-- The status of a kit: the fields the controller reads or writes, and its conditions. -/
structure IntegrationKitStatus where
  Phase : IntegrationKitPhase := .None
  Digest : String := ""
  ObservedGeneration : Int := 0
  Platform : String := ""
  Conditions : List Condition := []
deriving DecidableEq, Repr

/-- A kit: identity, generation, annotations, the rest of its body (`Spec`, kept whole)
and its status. -/
structure IntegrationKit where
  Namespace : String := ""
  Name : String := ""
  Generation : Int := 0
  Annotations : List (String × String) := []
  Spec : String := ""
  Status : IntegrationKitStatus := {}
deriving DecidableEq, Repr

/-- The status of a platform. -/
structure IntegrationPlatformStatus where
  Phase : IntegrationPlatformPhase := .Other ""
deriving DecidableEq, Repr

/-- A platform: identity and phase. -/
structure IntegrationPlatform where
  Namespace : String := ""
  Name : String := ""
  Status : IntegrationPlatformStatus := {}
deriving DecidableEq, Repr

/-- Go `types.NamespacedName`. -/
structure NamespacedName where
  Namespace : String
  Name : String
deriving DecidableEq, Repr

/-- Go `reconcile.Request`. -/
structure Request where
  NamespacedName : NamespacedName
deriving DecidableEq, Repr

/-- Go `time.Duration`, in nanoseconds. -/
abbrev Duration := Int

/-- Go `time.Second`. -/
def Second : Duration := 1000000000

/-- Constant `requeueAfterDuration` (controller:47-49). -/
def requeueAfterDuration : Duration := 2 * Second

/-- Go `reconcile.Result`; the zero value requests no requeue. -/
structure Result where
  Requeue : Bool := false
  RequeueAfter : Duration := 0
deriving DecidableEq, Repr

/-- The result of `platform.GetForResource`. The Go code reads `pl.Status.Phase` as soon as
the error is nil, so a nil platform with a nil error is not a result it can handle; with an
error the platform may or may not be nil. -/
inductive PlatformLookup where
  | found (pl : IntegrationPlatform)
  | failed (pl : Option IntegrationPlatform) (err : Err)
deriving DecidableEq, Repr

/-- The `Action` interface (`Name`, `CanHandle`, `Handle`); `Handle` returns the new target,
`none` for nil, and the error. -/
structure Action where
  Name : String
  CanHandle : IntegrationKit → Bool
  Handle : IntegrationKit → Option IntegrationKit × Option Err

/-- The position of an action in the chain built by `Reconcile`. -/
inductive ActionKind where
  | Initialize
  | Build
  | Monitor
  | Error
deriving DecidableEq, Repr

/-- What `Reconcile` does to its collaborators, in the order it does it. -/
inductive Effect where
  | Patch (target base : IntegrationKit)
  | Handle (kind : ActionKind) (target : IntegrationKit)
  | NotifyIntegrationKitError (inst : IntegrationKit) (newTarget : Option IntegrationKit)
      (err : Err)
  | NotifyIntegrationKitUpdated (inst : IntegrationKit) (newTarget : Option IntegrationKit)
deriving DecidableEq, Repr

/-- The collaborators of the controller and the constants of the `v1` package, none of
which is defined in the controller file. `Patch target base` is
`client.Status().Patch(ctx, target, ctrl.MergeFrom(base))`: the call is given a pointer to
`target` and writes the answer of the server into it, so it yields the object as it is left
behind the pointer, and the error. `IsExternal` and `IsSynthetic` are the methods of the
kit. -/
structure Deps where
  IsOperatorAllowedOnNamespace : String → Bool × Option Err
  Get : NamespacedName → IntegrationKit × Option Err
  IsNotFound : Err → Bool
  IsOperatorHandlerConsideringLock : String → IntegrationKit → Bool
  IsExternal : IntegrationKit → Bool
  IsSynthetic : IntegrationKit → Bool
  GetForResource : IntegrationKit → PlatformLookup
  SetErrorCondition : IntegrationKitStatus → Err → IntegrationKitStatus
  SetIntegrationPlatform : IntegrationKit → IntegrationPlatform → IntegrationKit
  ComputeForIntegrationKit : IntegrationKit → String × Option Err
  Patch : IntegrationKit → IntegrationKit → IntegrationKit × Option Err
  List : String → List IntegrationKit × Option Err
  NewInitializeAction : Action
  NewBuildAction : Action
  NewMonitorAction : Action
  NewErrorAction : Action
  PlatformSelectorAnnotation : String
  OperatorIDAnnotation : String

/-- One pass of the controller: the returned result and error, and the effects. -/
structure Pass where
  res : Result
  err : Option Err
  log : List Effect
deriving DecidableEq, Repr

/-- The update predicate of the primary resource (controller:85-91). -/
def kitUpdateFunc (ObjectOld ObjectNew : IntegrationKit) : Bool :=
  ObjectOld.Generation != ObjectNew.Generation ||
    ObjectOld.Status.Phase != ObjectNew.Status.Phase

/-- The body of the loop over the listed kits in the platform map function
(controller:141-160): `requests` after one more kit. -/
def wakeUpStep (d : Deps) (itp : IntegrationPlatform) (requests : List Request)
    (kit : IntegrationKit) : List Request :=
  if (match kit.Annotations.lookup d.PlatformSelectorAnnotation with
      | some v => v != itp.Name
      | none => false) then
    requests
  else if (match kit.Annotations.lookup d.OperatorIDAnnotation with
      | some v => v != itp.Name
      | none => false) then
    requests
  else if kit.Status.Phase = .WaitingForPlatform then
    requests ++ [{ NamespacedName := { Namespace := kit.Namespace, Name := kit.Name } }]
  else
    requests

/-- The map function of the platform watch (controller:133-164). -/
def platformMapFunc (d : Deps) (itp : IntegrationPlatform) : List Request :=
  let requests : List Request := []
  if itp.Status.Phase = .Ready then
    match d.List itp.Namespace with
    | (_, some _) => requests
    | (items, none) => items.foldl (wakeUpStep d itp) requests
  else
    requests

/-- Method `reconcileIntegrationKit.update` (controller:319-330). The Go method works on
the pointer `target`: it stamps the object and hands the pointer to the patch, which writes
into it. The first component is the object behind the pointer after the call, the second the
pass outcome; the effect records the object as it was submitted. -/
def update (d : Deps) (base target : IntegrationKit) : IntegrationKit × Pass :=
  match d.ComputeForIntegrationKit target with
  | (_, some err) => (target, { res := {}, err := some err, log := [] })
  | (dgst, none) =>
    let target := { target with Status := { target.Status with Digest := dgst } }
    let target :=
      { target with Status := { target.Status with ObservedGeneration := base.Generation } }
    match d.Patch target base with
    | (written, err) => (written, { res := {}, err := err, log := [.Patch target base] })

/-- The bootstrap block of `Reconcile` (controller:227-257), entered when the phase is
`None` or `WaitingForPlatform`; every path through it returns. -/
def bootstrap (d : Deps) (inst target : IntegrationKit) : Pass :=
  if d.IsExternal target || d.IsSynthetic target then
    let target := { target with Status := { target.Status with Phase := .Initialization } }
    (update d inst target).2
  else
    let lookup := d.GetForResource target
    let pl : Option IntegrationPlatform := match lookup with
      | .found pl => some pl
      | .failed pl _ => pl
    let err : Option Err := match lookup with
      | .found _ => none
      | .failed _ err => some err
    let phase : IntegrationKitPhase := match lookup with
      | .failed _ _ => .WaitingForPlatform
      | .found pl =>
        if pl.Status.Phase ≠ .Ready then .WaitingForPlatform else .Initialization
    let target := { target with Status := { target.Status with Phase := phase } }
    if inst.Status.Phase ≠ target.Status.Phase then
      let target := match err with
        | some e => { target with Status := d.SetErrorCondition target.Status e }
        | none => target
      let target := match pl with
        | some pl => d.SetIntegrationPlatform target pl
        | none => target
      (update d inst target).2
    else
      { res := {}, err := err, log := [] }

/-- How the loop over the actions ends: by a `return` of `Reconcile`, or by reaching the
code after the loop with `targetPhase`. -/
inductive LoopExit where
  | returned (pass : Pass)
  | finished (targetPhase : IntegrationKitPhase) (log : List Effect)
deriving DecidableEq, Repr

/-- The chain built at controller:259-264, each action with its position. -/
def actions (d : Deps) : List (ActionKind × Action) :=
  [ (.Initialize, d.NewInitializeAction),
    (.Build, d.NewBuildAction),
    (.Monitor, d.NewMonitorAction),
    (.Error, d.NewErrorAction) ]

/-- The loop over the actions (controller:266-307). -/
def dispatch (d : Deps) (inst target : IntegrationKit) :
    List (ActionKind × Action) → LoopExit
  | [] => .finished inst.Status.Phase []
  | (kind, a) :: rest =>
    if !a.CanHandle target then
      dispatch d inst target rest
    else
      match a.Handle target with
      | (newTarget, some err) =>
        .returned
          { res := {}, err := some err,
            log := [.Handle kind target, .NotifyIntegrationKitError inst newTarget err] }
      | (some newTarget, none) =>
        match update d inst newTarget with
        | (newTarget, { res := res, err := some err, log := log }) =>
          .returned
            { res := res, err := some err,
              log := [.Handle kind target] ++ log ++
                [.NotifyIntegrationKitError inst (some newTarget) err] }
        | (newTarget, { res := _, err := none, log := log }) =>
          .finished newTarget.Status.Phase
            ([.Handle kind target] ++ log ++
              [.NotifyIntegrationKitUpdated inst (some newTarget)])
      | (none, none) =>
        .finished inst.Status.Phase
          [.Handle kind target, .NotifyIntegrationKitUpdated inst none]

/-- The requeue policy after the loop (controller:309-316). -/
def requeue (targetPhase : IntegrationKitPhase) (log : List Effect) : Pass :=
  if targetPhase = .WaitingForCatalog then
    { res := { RequeueAfter := requeueAfterDuration }, err := none, log := log }
  else
    { res := {}, err := none, log := log }

/-- Action dispatch and requeue policy (controller:259-316). -/
def dispatchAndRequeue (d : Deps) (inst target : IntegrationKit) : Pass :=
  match dispatch d inst target (actions d) with
  | .returned pass => pass
  | .finished targetPhase log => requeue targetPhase log

/-- Method `reconcileIntegrationKit.Reconcile` (controller:190-317). -/
def Reconcile (d : Deps) (request : Request) : Pass :=
  match d.IsOperatorAllowedOnNamespace request.NamespacedName.Namespace with
  | (_, some err) => { res := {}, err := some err, log := [] }
  | (false, none) => { res := {}, err := none, log := [] }
  | (true, none) =>
  match d.Get request.NamespacedName with
  | (_, some err) =>
    if d.IsNotFound err then { res := {}, err := none, log := [] }
    else { res := {}, err := some err, log := [] }
  | (inst, none) =>
  if !d.IsOperatorHandlerConsideringLock request.NamespacedName.Namespace inst then
    { res := {}, err := none, log := [] }
  else
  let target := inst
  if target.Status.Phase = .None ∨ target.Status.Phase = .WaitingForPlatform then
    bootstrap d inst target
  else
    dispatchAndRequeue d inst target

end integrationkit

/-! ## The controller: vocabulary of the properties -/

namespace integrationkit

/-- A pass over `request` gets past the authorization gate, reads `inst` and finds it
assigned to this operator (controller:194-221). -/
def admits (d : Deps) (request : Request) (inst : IntegrationKit) : Prop :=
  d.IsOperatorAllowedOnNamespace request.NamespacedName.Namespace = (true, none) ∧
  d.Get request.NamespacedName = (inst, none) ∧
  d.IsOperatorHandlerConsideringLock request.NamespacedName.Namespace inst = true

instance (d : Deps) (request : Request) (inst : IntegrationKit) :
    Decidable (admits d request inst) := by
  unfold admits; infer_instance

/-- A pass over `request` reads `inst` and gets to action dispatch: it is admitted and the
phase is neither `None` nor `WaitingForPlatform`. -/
def reachesDispatch (d : Deps) (request : Request) (inst : IntegrationKit) : Prop :=
  admits d request inst ∧
  inst.Status.Phase ≠ .None ∧ inst.Status.Phase ≠ .WaitingForPlatform

instance (d : Deps) (request : Request) (inst : IntegrationKit) :
    Decidable (reachesDispatch d request inst) := by
  unfold reachesDispatch; infer_instance

/-- A pass over `request` reads `inst` and enters the bootstrap block for a kit that is
neither external nor synthetic. -/
def reachesPlatformLookup (d : Deps) (request : Request) (inst : IntegrationKit) : Prop :=
  admits d request inst ∧
  (inst.Status.Phase = .None ∨ inst.Status.Phase = .WaitingForPlatform) ∧
  d.IsExternal inst = false ∧ d.IsSynthetic inst = false

instance (d : Deps) (request : Request) (inst : IntegrationKit) :
    Decidable (reachesPlatformLookup d request inst) := by
  unfold reachesPlatformLookup; infer_instance

/-- The action at a position of the chain. -/
def actionOf (d : Deps) : ActionKind → Action
  | .Initialize => d.NewInitializeAction
  | .Build => d.NewBuildAction
  | .Monitor => d.NewMonitorAction
  | .Error => d.NewErrorAction

/-- The first action, in the order Initialize, Build, Monitor, Error, whose `CanHandle`
accepts the target. -/
def firstMatch (d : Deps) (target : IntegrationKit) : Option ActionKind :=
  if d.NewInitializeAction.CanHandle target then some .Initialize
  else if d.NewBuildAction.CanHandle target then some .Build
  else if d.NewMonitorAction.CanHandle target then some .Monitor
  else if d.NewErrorAction.CanHandle target then some .Error
  else none

/-- The post-dispatch phase: the phase of the non-nil result of the handled action, read
from the object behind the pointer once `update` has returned (controller:291), otherwise the
phase read at the start of the pass. -/
def postDispatchPhase (d : Deps) (inst : IntegrationKit) : IntegrationKitPhase :=
  match firstMatch d inst with
  | none => inst.Status.Phase
  | some kind =>
    match ((actionOf d kind).Handle inst).1 with
    | some newTarget => (update d inst newTarget).1.Status.Phase
    | none => inst.Status.Phase

/-- The `Handle` invocations of a pass: position and argument, in order. -/
def handled : List Effect → List (ActionKind × IntegrationKit)
  | [] => []
  | .Handle kind target :: log => (kind, target) :: handled log
  | _ :: log => handled log

/-- The status patches of a pass: submitted object and base, in order. -/
def patched : List Effect → List (IntegrationKit × IntegrationKit)
  | [] => []
  | .Patch target base :: log => (target, base) :: patched log
  | _ :: log => patched log

/-- The failures reported to the notification collaborator in a pass, in order. -/
def notifiedErrors : List Effect → List (IntegrationKit × Option IntegrationKit × Err)
  | [] => []
  | .NotifyIntegrationKitError inst newTarget err :: log =>
    (inst, newTarget, err) :: notifiedErrors log
  | _ :: log => notifiedErrors log

/-- The object that `update` submits: `target` with the digest and the observed
generation stamped. -/
def stamped (target : IntegrationKit) (dgst : String) (generation : Int) : IntegrationKit :=
  { target with
    Status := { target.Status with Digest := dgst, ObservedGeneration := generation } }

/-- The kit waits for the platform: the condition of the claim on the wake-up map
function. -/
def wakes (d : Deps) (itp : IntegrationPlatform) (kit : IntegrationKit) : Bool :=
  decide (itp.Status.Phase = .Ready) &&
  decide (kit.Status.Phase = .WaitingForPlatform) &&
  (kit.Annotations.lookup d.PlatformSelectorAnnotation == none ||
    kit.Annotations.lookup d.PlatformSelectorAnnotation == some itp.Name) &&
  (kit.Annotations.lookup d.OperatorIDAnnotation == none ||
    kit.Annotations.lookup d.OperatorIDAnnotation == some itp.Name)

/-- The reconcile request for a kit. -/
def requestFor (kit : IntegrationKit) : Request :=
  { NamespacedName := { Namespace := kit.Namespace, Name := kit.Name } }

/-- The phase computed by the bootstrap block for a kit that is neither external nor
synthetic: `Initialization` when the platform is found and `Ready`, `WaitingForPlatform`
otherwise. -/
def computedPhase (d : Deps) (inst : IntegrationKit) : IntegrationKitPhase :=
  match d.GetForResource inst with
  | .found pl => if pl.Status.Phase = .Ready then .Initialization else .WaitingForPlatform
  | .failed _ _ => .WaitingForPlatform

/-- The error of the platform resolution, `none` when it succeeded. -/
def lookupError (d : Deps) (inst : IntegrationKit) : Option Err :=
  match d.GetForResource inst with
  | .found _ => none
  | .failed _ err => some err

/-- The kit handed to `update` by the bootstrap block when the phase changes: the computed
phase, then the error condition when the resolution failed, then the platform when there
is one. -/
def bootstrapTarget (d : Deps) (inst : IntegrationKit) : IntegrationKit :=
  match d.GetForResource inst with
  | .found pl =>
    d.SetIntegrationPlatform
      { inst with Status := { inst.Status with Phase := computedPhase d inst } } pl
  | .failed (some pl) err =>
    d.SetIntegrationPlatform
      { inst with
        Status := d.SetErrorCondition
          { inst.Status with Phase := .WaitingForPlatform } err } pl
  | .failed none err =>
    { inst with
      Status := d.SetErrorCondition { inst.Status with Phase := .WaitingForPlatform } err }

/-! ### Concrete clusters -/

/-- An action that accepts the kits in phase `phase` and returns them in phase `next`. -/
def phaseAction (name : String) (phase next : IntegrationKitPhase) : Action where
  Name := name
  CanHandle := fun kit => kit.Status.Phase == phase
  Handle := fun kit => (some { kit with Status := { kit.Status with Phase := next } }, none)

/-- An action that accepts every kit and returns it as it is. -/
def catchAllAction : Action where
  Name := "catch-all"
  CanHandle := fun _ => true
  Handle := fun kit => (some kit, none)

/-- An action that accepts the kits in phase `phase` and fails on them with `err`. -/
def failingAction (name : String) (phase : IntegrationKitPhase) (err : Err) : Action where
  Name := name
  CanHandle := fun kit => kit.Status.Phase == phase
  Handle := fun _ => (none, some err)

/-- The kit `ns/a`, at generation 3, in a given phase. -/
def kitA (phase : IntegrationKitPhase) : IntegrationKit :=
  { Namespace := "ns", Name := "a", Generation := 3, Status := { Phase := phase } }

/-- The request for `ns/a`. -/
def requestA : Request :=
  { NamespacedName := { Namespace := "ns", Name := "a" } }

/-- A cluster that holds the single kit `kit`, assigned to this operator, whose platform
resolution gives `lookup`; digests are computed and patches accepted. -/
def clusterWith (kit : IntegrationKit) (lookup : PlatformLookup) : Deps where
  IsOperatorAllowedOnNamespace := fun _ => (true, none)
  Get := fun _ => (kit, none)
  IsNotFound := fun _ => false
  IsOperatorHandlerConsideringLock := fun _ _ => true
  IsExternal := fun _ => false
  IsSynthetic := fun _ => false
  GetForResource := fun _ => lookup
  SetErrorCondition := fun status err =>
    { status with
      Conditions := status.Conditions ++
        [{ Kind := "PlatformAvailable", Status := "False",
           Reason := "IntegrationPlatformAvailable", Message := err }] }
  SetIntegrationPlatform := fun kit pl =>
    { kit with Status := { kit.Status with Platform := pl.Name } }
  ComputeForIntegrationKit := fun kit => ("v1-" ++ kit.Name, none)
  Patch := fun target _ => (target, none)
  List := fun _ => ([kit], none)
  NewInitializeAction := phaseAction "initialize" .Initialization .WaitingForCatalog
  NewBuildAction := phaseAction "build" .WaitingForCatalog .Ready
  NewMonitorAction := phaseAction "monitor" .Ready .Ready
  NewErrorAction := phaseAction "error" .Error .Error
  PlatformSelectorAnnotation := "camel.apache.org/platform.id"
  OperatorIDAnnotation := "camel.apache.org/operator.id"

/-- The platform `ns/p` in a given phase. -/
def platformP (phase : IntegrationPlatformPhase) : IntegrationPlatform :=
  { Namespace := "ns", Name := "p", Status := { Phase := phase } }

/-- Four kits of namespace `ns`: `a` waits and has no annotation, `b` waits for the platform
`other`, `c` is ready, `e` waits for the platform `p`. -/
def kitsOfNs : List IntegrationKit :=
  [ kitA .WaitingForPlatform,
    { Namespace := "ns", Name := "b", Status := { Phase := .WaitingForPlatform },
      Annotations := [("camel.apache.org/platform.id", "other")] },
    { Namespace := "ns", Name := "c", Status := { Phase := .Ready } },
    { Namespace := "ns", Name := "e", Status := { Phase := .WaitingForPlatform },
      Annotations := [("camel.apache.org/platform.id", "p")] } ]

/-- The cluster of `clusterWith` whose listing of a namespace returns `kits`. -/
def clusterListing (kits : List IntegrationKit) : Deps :=
  { clusterWith (kitA .WaitingForPlatform) (.found (platformP .Ready)) with
    List := fun _ => (kits, none) }

end integrationkit

/-! ## The build task: vocabulary of the properties and concrete hosts -/

namespace builder

/-- Whether `Do` gets past the reuse check of jib.go:80 to the registry step: the context
directory is resolved, both probes return without error, and the directory exists and is
not empty. -/
def reachesRegistryStep (h : Host) (t : jibTask) : Bool :=
  match contextDir h t with
  | (_, some _) => false
  | (dir, none) =>
    match h.DirectoryExists dir with
    | (_, some _) => false
    | (dirExists, none) =>
      match h.DirectoryEmpty dir with
      | (_, some _) => false
      | (empty, none) => dirExists && !empty

/-- A host on which every step succeeds: the context directory exists and is not empty,
the secret is mounted at `/tmp/jib-secret-1`, files read as `content` and the external
command exits with status zero. -/
def hostOk (content : String) : Host where
  Getwd := ("/workspace", none)
  DirectoryExists := fun _ => (true, none)
  DirectoryEmpty := fun _ => (false, none)
  MountSecretRegistryConfig := fun _ pfx _ => ("/tmp/" ++ pfx ++ "1", none)
  ReadFile := fun _ => (content, none)
  RunAndLog := fun _ => none
  Unsetenv := fun _ => none
  RemoveAll := fun _ => none
  filepath_Join := fun dir file => dir ++ "/" ++ file
  strings_ReplaceAll := fun s old new => s.replace old new
  strings_Split := fun s sep => s.splitOn sep
  strings_Join := fun elems sep => sep.intercalate elems
  ContextDir := "context"
  JibRegistryConfigEnvVar := "DOCKER_CONFIG"
  JibMavenGoal := "jib:build"
  JibMavenToImageParam := "-Djib.to.image="
  JibMavenFromImageParam := "-Djib.from.image="
  JibMavenBaseImageCache := "-Djib.baseImageCache="
  JibMavenFromPlatforms := "-Djib.from.platforms="
  JibMavenInsecureRegistries := "-Djib.allowInsecureRegistries="
  JibDigestFile := "target/jib-image.digest"

/-- The host of `hostOk` on which no file can be read: `MAVEN_CONTEXT` is absent. -/
def hostNoMavenContext : Host :=
  { hostOk "" with ReadFile := fun _ => ("", some "open MAVEN_CONTEXT: no such file") }

/-- The host of `hostOk` whose context directory is reported missing by the existence
probe, and whose emptiness probe fails on it. -/
def hostMissingDir : Host :=
  { hostOk "" with
    DirectoryExists := fun _ => (false, none)
    DirectoryEmpty := fun _ => (false, some "open /workspace/context: no such file") }

/-- A task that names the registry secret `reg-creds`. -/
def taskWithSecret : jibTask where
  build := { Namespace := "ns" }
  task :=
    { BaseImage := "reg/img:base", ContextDir := "/workspace/context", Image := "reg/img:new",
      Registry := { Address := "reg", Secret := "reg-creds" } }

/-- A task without registry secret. -/
def taskNoSecret : jibTask where
  build := { Namespace := "ns" }
  task := { BaseImage := "reg/img:base", ContextDir := "/workspace/context", Image := "reg/img:new" }

/-- Go `strings.ReplaceAll` for a non-empty `old`, over the characters still to be read:
`skip` characters of a match just replaced are dropped first; at a position where `old`
starts, `new` is put out and the match is skipped. -/
def replaceAllFrom (old new : List Char) : Nat → List Char → List Char
  | _, [] => []
  | skip + 1, _ :: rest => replaceAllFrom old new skip rest
  | 0, c :: rest =>
    if old.isPrefixOf (c :: rest) then new ++ replaceAllFrom old new (old.length - 1) rest
    else c :: replaceAllFrom old new 0 rest

/-- Go `strings.ReplaceAll`: the non-overlapping occurrences of `old` replaced by `new`,
left to right; an empty `old` matches before every character and at the end. -/
def stringsReplaceAll (s old new : String) : String :=
  if old = "" then
    String.mk (new.data ++ s.data.flatMap (fun c => c :: new.data))
  else
    String.mk (replaceAllFrom old.data new.data 0 s.data)

/-- The host of `hostOk` on which `MAVEN_CONTEXT` reads as `clean package` and no other
file can be read: the external command exits with status zero and leaves no digest file. -/
def hostNoDigest : Host :=
  { hostOk "" with
    strings_ReplaceAll := stringsReplaceAll
    ReadFile := fun path =>
      if path = "/workspace/maven/MAVEN_CONTEXT" then ("clean package", none)
      else ("", some "open target/jib-image.digest: no such file") }

/-- The host of `hostOk` on which the external command fails. -/
def hostCommandFails : Host :=
  { hostOk "clean package" with RunAndLog := fun _ => some "exit status 1" }

end builder

/-! ## Properties -/

namespace builder

/-- Function `cleanRegistryConfig` runs no command. -/
theorem cleanRegistryConfig_runs (h : Host) (dir : String) (q : Process) :
    (cleanRegistryConfig h dir q).2.runs = q.runs := by
  unfold cleanRegistryConfig
  split
  · rfl
  · split <;> rfl

/-- Function `cleanRegistryConfig` leaves the environment as it is when `os.Unsetenv` fails, and
unsets the variable otherwise. -/
theorem cleanRegistryConfig_env (h : Host) (dir : String) (q : Process) :
    (cleanRegistryConfig h dir q).2.env = q.env ∨
      (cleanRegistryConfig h dir q).2.env = Unsetenv h.JibRegistryConfigEnvVar q.env := by
  unfold cleanRegistryConfig
  split
  · exact Or.inl rfl
  · split <;> exact Or.inr rfl

/-- The registry step runs no command. -/
theorem mountRegistryConfig_runs (h : Host) (t : jibTask) (p : Process) :
    (mountRegistryConfig h t p).2.2.runs = p.runs := by
  unfold mountRegistryConfig
  split
  · simp only []
    split <;> rfl
  · rfl

/-- After `os.Setenv` the variable reads as the value written. -/
theorem LookupEnv_Setenv (key value : String) (env : List (String × String)) :
    LookupEnv key (Setenv key value env) = some value := by
  induction env with
  | nil => simp [LookupEnv, Setenv, List.lookup]
  | cons kv env ih =>
    rcases kv with ⟨k, v⟩
    by_cases hk : k = key
    · simp [LookupEnv, Setenv, hk, List.lookup]
    · have hne : (key == k) = false := by
        simp only [beq_eq_false_iff_ne, ne_eq]
        exact fun hkey => hk hkey.symm
      simp only [LookupEnv] at ih
      simp [LookupEnv, Setenv, hk, List.lookup, hne, ih]

/-- With a secret named, the registry step leaves the environment with the returned path
written to the registry-config variable. -/
theorem mountRegistryConfig_env (h : Host) (t : jibTask) (p : Process)
    (hsecret : t.task.Registry.Secret ≠ "") :
    (mountRegistryConfig h t p).2.2.env =
      Setenv h.JibRegistryConfigEnvVar
        (h.MountSecretRegistryConfig t.build.Namespace "jib-secret-" t.task.Registry.Secret).1
        p.env := by
  simp only [mountRegistryConfig, hsecret, ne_eq, not_false_eq_true, if_true]
  split <;> rfl

/-- When `Do` leaves one more command run than it found, the command is the one built at
jib.go:128-136 from the process state left by the registry step, and the environment `Do`
leaves is the one of that state, or that one with the registry-config variable unset. -/
theorem Do_launched (h : Host) (t : jibTask) (p : Process) (cmd : Cmd)
    (hran : (jibTask.Do h t p).2.runs = p.runs ++ [cmd]) :
    ∃ dir content,
      contextDir h t = (dir, none) ∧
      cmd = mvnCommand
        (mavenArgs h t (baseImage t) (h.strings_ReplaceAll dir h.ContextDir "maven") content)
        (h.strings_ReplaceAll dir h.ContextDir "maven") (mountRegistryConfig h t p).2.2 ∧
      ((jibTask.Do h t p).2.env = (mountRegistryConfig h t p).2.2.env ∨
        (jibTask.Do h t p).2.env =
          Unsetenv h.JibRegistryConfigEnvVar (mountRegistryConfig h t p).2.2.env) := by
  rcases hd : contextDir h t with ⟨dir, _ | derr⟩
  · rcases hx : h.DirectoryExists dir with ⟨dirExists, _ | xerr⟩
    · rcases he : h.DirectoryEmpty dir with ⟨empty, _ | eerr⟩
      · by_cases hre : (!dirExists || empty) = true
        · simp [jibTask.Do, hd, hx, he, hre] at hran
        · have hq := mountRegistryConfig_runs h t p
          rcases hm : mountRegistryConfig h t p with ⟨mdir, merr, q⟩
          rw [hm] at hq
          simp only [] at hq
          cases merr with
          | some merr => simp [jibTask.Do, hd, hx, he, hre, hm, hq] at hran
          | none =>
            rcases hr : h.ReadFile (h.filepath_Join (h.strings_ReplaceAll dir h.ContextDir "maven")
              "MAVEN_CONTEXT") with ⟨content, _ | rerr⟩
            · simp only [jibTask.Do, hd, hx, he, hre, hm, hr, Bool.false_eq_true, if_false]
                at hran ⊢
              refine ⟨dir, content, rfl, ?_⟩
              generalize hcmd : mvnCommand
                (mavenArgs h t (baseImage t) (h.strings_ReplaceAll dir h.ContextDir "maven")
                  content)
                (h.strings_ReplaceAll dir h.ContextDir "maven") q = cmd0 at hran ⊢
              have hruns := cleanRegistryConfig_runs h mdir
                { env := q.env, dirs := q.dirs, runs := q.runs ++ [cmd0] }
              have henv := cleanRegistryConfig_env h mdir
                { env := q.env, dirs := q.dirs, runs := q.runs ++ [cmd0] }
              generalize cleanRegistryConfig h mdir
                { env := q.env, dirs := q.dirs, runs := q.runs ++ [cmd0] } = c
                at hran hruns henv ⊢
              rcases c with ⟨cerr, cp⟩
              simp only [hq] at hruns hran
              simp only [] at henv
              cases hrun : h.RunAndLog cmd0 with
              | some e =>
                simp only [hrun] at hran ⊢
                have hc : cmd0 = cmd := by rw [hruns] at hran; simpa using hran
                exact ⟨hc.symm, henv⟩
              | none =>
                simp only [hrun] at hran ⊢
                rcases hdg : h.ReadFile (h.filepath_Join
                  (h.strings_ReplaceAll dir h.ContextDir "maven") h.JibDigestFile) with
                  ⟨dg, _ | derr⟩
                · simp only [hdg] at hran ⊢
                  by_cases hmd : mdir = ""
                  · have hc : cmd0 = cmd := by simpa [hmd] using hran
                    refine ⟨hc.symm, Or.inl ?_⟩
                    simp [hmd]
                  · simp only [hmd, ne_eq, not_false_eq_true, if_true] at hran ⊢
                    cases cerr with
                    | none =>
                      have hc : cmd0 = cmd := by rw [hruns] at hran; simpa using hran
                      exact ⟨hc.symm, henv⟩
                    | some cleanErr =>
                      have hc : cmd0 = cmd := by rw [hruns] at hran; simpa using hran
                      exact ⟨hc.symm, henv⟩
                · simp only [hdg] at hran ⊢
                  have hc : cmd0 = cmd := by rw [hruns] at hran; simpa using hran
                  exact ⟨hc.symm, henv⟩
            · simp [jibTask.Do, hd, hx, he, hre, hm, hr, hq] at hran
      · simp [jibTask.Do, hd, hx, he] at hran
    · simp [jibTask.Do, hd, hx] at hran
  · simp [jibTask.Do, hd] at hran

/-- Before the registry step `Do` leaves the process as it was: when the context directory
is not resolved, a probe fails, or the directory is reported missing or empty, no command is
run, nothing is mounted and the environment is untouched. -/
theorem Do_unchanged_before_registry_step (h : Host) (t : jibTask) (p : Process)
    (hnot : reachesRegistryStep h t = false) :
    (jibTask.Do h t p).2 = p := by
  simp only [reachesRegistryStep] at hnot
  rcases hd : contextDir h t with ⟨dir, _ | derr⟩
  · rcases hx : h.DirectoryExists dir with ⟨dirExists, _ | xerr⟩
    · rcases he : h.DirectoryEmpty dir with ⟨empty, _ | eerr⟩
      · simp only [hd, hx, he] at hnot
        have hre : (!dirExists || empty) = true := by
          cases dirExists <;> cases empty <;> simp_all
        simp [jibTask.Do, hd, hx, he, hre]
      · simp [jibTask.Do, hd, hx, he]
    · simp [jibTask.Do, hd, hx]
  · simp [jibTask.Do, hd]

/-- C1 (defect of the code): a secret is named and its mount succeeds, then `MAVEN_CONTEXT`
cannot be read. `Do` returns the failed status of jib.go:102-105 without calling
`cleanRegistryConfig`: the registry-config variable is still set and the mounted
directory is still present after `Do` has returned. -/
theorem C1_mount_not_cleaned_when_maven_context_unreadable :
    (mountRegistryConfig hostNoMavenContext taskWithSecret {}).2.1 = none ∧
    (jibTask.Do hostNoMavenContext taskWithSecret {}).1.Error =
      some "open MAVEN_CONTEXT: no such file" ∧
    LookupEnv hostNoMavenContext.JibRegistryConfigEnvVar
      (jibTask.Do hostNoMavenContext taskWithSecret {}).2.env = some "/tmp/jib-secret-1" ∧
    "/tmp/jib-secret-1" ∈ (jibTask.Do hostNoMavenContext taskWithSecret {}).2.dirs := by
  decide

/-- When the context directory is resolved and both probes return without error, reporting
the directory missing or empty, `Do` returns the status with the effective base and root
images, `Image` equal to the base image and no error, and leaves the process as it was. -/
theorem Do_reuse_when_probes_succeed (h : Host) (t : jibTask) (p : Process)
    (dir : String) (dirExists empty : Bool)
    (hdir : contextDir h t = (dir, none))
    (hexists : h.DirectoryExists dir = (dirExists, none))
    (hempty : h.DirectoryEmpty dir = (empty, none))
    (hreuse : dirExists = false ∨ empty = true) :
    (jibTask.Do h t p).1 =
        { BaseImage := baseImage t, RootImage := rootImage t, Image := baseImage t,
          Digest := "", Error := none } ∧
      (jibTask.Do h t p).2 = p := by
  rcases hreuse with hr | hr <;> subst hr <;> simp [jibTask.Do, hdir, hexists, hempty]

/-- C2 (defect of the code): the context directory is reported missing by the existence
probe and the emptiness probe fails on it. `Do` calls the emptiness probe before the reuse
test and returns on its error (jib.go:76-79), so the test `!exists || empty` of jib.go:80 is
never reached for this missing directory: the status is failed and has no image, where the
base image `reg/img:base` was to be reused. No command is run and nothing is mounted. -/
theorem C2_missing_directory_failed_status :
    contextDir hostMissingDir taskNoSecret = ("/workspace/context", none) ∧
    hostMissingDir.DirectoryExists "/workspace/context" = (false, none) ∧
    hostMissingDir.DirectoryEmpty "/workspace/context" =
      (false, some "open /workspace/context: no such file") ∧
    baseImage taskNoSecret = "reg/img:base" ∧
    (jibTask.Do hostMissingDir taskNoSecret {}).1.Error =
      some "open /workspace/context: no such file" ∧
    (jibTask.Do hostMissingDir taskNoSecret {}).1.Image = "" ∧
    (jibTask.Do hostMissingDir taskNoSecret {}).2 = {} := by
  decide

end builder

namespace integrationkit

/-- A pass that reaches action dispatch is the dispatch over the kit that was read. -/
theorem Reconcile_of_reachesDispatch (d : Deps) (request : Request) (inst : IntegrationKit)
    (hreach : reachesDispatch d request inst) :
    Reconcile d request = dispatchAndRequeue d inst inst := by
  obtain ⟨⟨h1, h2, h3⟩, h4, h5⟩ := hreach
  simp [Reconcile, h1, h2, h3, h4, h5]

/-- Method `update`, by cases: a digest error leaves the object as it was and issues no
patch; otherwise the stamped object is submitted against `base`, and the object left by the
patch and its error are returned. -/
theorem update_eq (d : Deps) (base target : IntegrationKit) :
    update d base target =
      match d.ComputeForIntegrationKit target with
      | (_, some err) => (target, { res := {}, err := some err, log := [] })
      | (dgst, none) =>
        ((d.Patch (stamped target dgst base.Generation) base).1,
          { res := {}, err := (d.Patch (stamped target dgst base.Generation) base).2,
            log := [.Patch (stamped target dgst base.Generation) base] }) := by
  unfold update stamped
  rcases d.ComputeForIntegrationKit target with ⟨dgst, _ | err⟩ <;> rfl

/-- Action dispatch, by cases: no action accepts the target; the first accepting action
fails; it returns a kit whose digest cannot be computed, whose patch fails, or whose patch
succeeds and leaves `written` behind the pointer; it returns no kit. -/
theorem dispatchAndRequeue_eq (d : Deps) (inst target : IntegrationKit) :
    dispatchAndRequeue d inst target =
      match firstMatch d target with
      | none => requeue inst.Status.Phase []
      | some kind =>
        match (actionOf d kind).Handle target with
        | (newTarget, some err) =>
          { res := {}, err := some err,
            log := [.Handle kind target, .NotifyIntegrationKitError inst newTarget err] }
        | (none, none) =>
          requeue inst.Status.Phase
            [.Handle kind target, .NotifyIntegrationKitUpdated inst none]
        | (some newTarget, none) =>
          match d.ComputeForIntegrationKit newTarget with
          | (_, some err) =>
            { res := {}, err := some err,
              log := [.Handle kind target,
                .NotifyIntegrationKitError inst (some newTarget) err] }
          | (dgst, none) =>
            match d.Patch (stamped newTarget dgst inst.Generation) inst with
            | (written, some err) =>
              { res := {}, err := some err,
                log := [.Handle kind target,
                  .Patch (stamped newTarget dgst inst.Generation) inst,
                  .NotifyIntegrationKitError inst (some written) err] }
            | (written, none) =>
              requeue written.Status.Phase
                [.Handle kind target,
                  .Patch (stamped newTarget dgst inst.Generation) inst,
                  .NotifyIntegrationKitUpdated inst (some written)] := by
  have step : ∀ (kind : ActionKind) (a : Action),
      a.CanHandle target = true →
      ∀ rest, (match dispatch d inst target ((kind, a) :: rest) with
        | .returned pass => pass
        | .finished targetPhase log => requeue targetPhase log) =
      match a.Handle target with
      | (newTarget, some err) =>
        { res := {}, err := some err,
          log := [.Handle kind target, .NotifyIntegrationKitError inst newTarget err] }
      | (none, none) =>
        requeue inst.Status.Phase
          [.Handle kind target, .NotifyIntegrationKitUpdated inst none]
      | (some newTarget, none) =>
        match d.ComputeForIntegrationKit newTarget with
        | (_, some err) =>
          { res := {}, err := some err,
            log := [.Handle kind target,
              .NotifyIntegrationKitError inst (some newTarget) err] }
        | (dgst, none) =>
          match d.Patch (stamped newTarget dgst inst.Generation) inst with
          | (written, some err) =>
            { res := {}, err := some err,
              log := [.Handle kind target,
                .Patch (stamped newTarget dgst inst.Generation) inst,
                .NotifyIntegrationKitError inst (some written) err] }
          | (written, none) =>
            requeue written.Status.Phase
              [.Handle kind target,
                .Patch (stamped newTarget dgst inst.Generation) inst,
                .NotifyIntegrationKitUpdated inst (some written)] := by
    intro kind a hcan rest
    simp only [dispatch, hcan, Bool.not_true, Bool.false_eq_true, if_false]
    rcases a.Handle target with ⟨_ | newTarget, _ | err⟩
    · rfl
    · rfl
    · simp only [update_eq]
      rcases d.ComputeForIntegrationKit newTarget with ⟨dgst, _ | cerr⟩
      · simp only []
        generalize d.Patch (stamped newTarget dgst inst.Generation) inst = answer
        rcases answer with ⟨written, _ | perr⟩ <;> rfl
      · rfl
    · rfl
  have skip : ∀ (kind : ActionKind) (a : Action),
      a.CanHandle target = false →
      ∀ rest, dispatch d inst target ((kind, a) :: rest) = dispatch d inst target rest := by
    intro kind a hcan rest
    simp [dispatch, hcan]
  unfold dispatchAndRequeue actions firstMatch
  cases h1 : d.NewInitializeAction.CanHandle target
  · rw [skip _ _ h1]
    cases h2 : d.NewBuildAction.CanHandle target
    · rw [skip _ _ h2]
      cases h3 : d.NewMonitorAction.CanHandle target
      · rw [skip _ _ h3]
        cases h4 : d.NewErrorAction.CanHandle target
        · rw [skip _ _ h4]
          simp [dispatch]
        · rw [step _ _ h4]
          simp [actionOf]
      · rw [step _ _ h3]
        simp [actionOf]
    · rw [step _ _ h2]
      simp [actionOf]
  · rw [step _ _ h1]
    simp [actionOf]

/-- C3: in a pass that reaches action dispatch, whatever the actions answer, `Handle` is
invoked at most once, on the first action in the order Initialize, Build, Monitor, Error
whose `CanHandle` accepts the target, with that target; at most one patch is issued, and a
patch submits the stamped result of that same action against the kit that was read. -/
theorem C3_first_capable_action_only (d : Deps) (request : Request) (inst : IntegrationKit)
    (hreach : reachesDispatch d request inst) :
    handled (Reconcile d request).log = (firstMatch d inst).toList.map (fun kind => (kind, inst)) ∧
    (patched (Reconcile d request).log).length ≤ 1 ∧
    (∀ target base, (target, base) ∈ patched (Reconcile d request).log →
      base = inst ∧
      ∃ kind newTarget dgst, firstMatch d inst = some kind ∧
        (actionOf d kind).Handle inst = (some newTarget, none) ∧
        d.ComputeForIntegrationKit newTarget = (dgst, none) ∧
        target = stamped newTarget dgst inst.Generation) := by
  rw [Reconcile_of_reachesDispatch d request inst hreach, dispatchAndRequeue_eq]
  cases hf : firstMatch d inst with
  | none => simp [requeue, handled, patched, apply_ite]
  | some kind =>
    rcases hh : (actionOf d kind).Handle inst with ⟨_ | newTarget, _ | err⟩
    · simp [hh, requeue, handled, patched, apply_ite]
    · simp [hh, handled, patched]
    · rcases hc : d.ComputeForIntegrationKit newTarget with ⟨dgst, _ | cerr⟩
      · rcases hp : d.Patch (stamped newTarget dgst inst.Generation) inst with
          ⟨written, _ | perr⟩
        · simp [hh, hc, hp, requeue, handled, patched, apply_ite]
        · simp [hh, hc, hp, handled, patched]
      · simp [hh, hc, handled, patched]
    · simp [hh, handled, patched]

/-- C3 (witness): the kit `ns/a` in phase `Initialization`: the Initialize action is the
first to accept it, is the only one handled, and its result is patched. -/
theorem C3_first_capable_action_only_witness :
    reachesDispatch (clusterWith (kitA .Initialization) (.found (platformP .Ready)))
      requestA (kitA .Initialization) ∧
    handled (Reconcile (clusterWith (kitA .Initialization) (.found (platformP .Ready)))
      requestA).log = [(.Initialize, kitA .Initialization)] := by
  refine ⟨by decide, ?_⟩
  have key := (C3_first_capable_action_only
    (clusterWith (kitA .Initialization) (.found (platformP .Ready)))
    requestA (kitA .Initialization) (by decide)).1
  rw [key]
  decide

/-- A pass that enters the bootstrap block for a kit that is neither external nor synthetic
is the bootstrap block over the kit that was read. -/
theorem Reconcile_of_reachesPlatformLookup (d : Deps) (request : Request)
    (inst : IntegrationKit) (hreach : reachesPlatformLookup d request inst) :
    Reconcile d request = bootstrap d inst inst := by
  obtain ⟨⟨h1, h2, h3⟩, h4, _, _⟩ := hreach
  simp [Reconcile, h1, h2, h3, h4]

/-- C4 (counterexample): the kit `ns/a` waits for its platform. With the platform found but
not ready (phase unchanged, resolution succeeded) the pass returns at once: no action is
handled although the last action of the chain accepts the kit. With the resolution failing
the pass returns the error and issues no patch. -/
theorem C4_unchanged_phase_returns_without_dispatch :
    (reachesPlatformLookup
        { clusterWith (kitA .WaitingForPlatform) (.found (platformP (.Other "Creating"))) with
          NewErrorAction := catchAllAction }
        requestA (kitA .WaitingForPlatform) ∧
      firstMatch
        { clusterWith (kitA .WaitingForPlatform) (.found (platformP (.Other "Creating"))) with
          NewErrorAction := catchAllAction }
        (kitA .WaitingForPlatform) = some .Error ∧
      Reconcile
        { clusterWith (kitA .WaitingForPlatform) (.found (platformP (.Other "Creating"))) with
          NewErrorAction := catchAllAction }
        requestA = { res := {}, err := none, log := [] }) ∧
    (reachesPlatformLookup
        (clusterWith (kitA .WaitingForPlatform) (.failed none "platform not found"))
        requestA (kitA .WaitingForPlatform) ∧
      Reconcile (clusterWith (kitA .WaitingForPlatform) (.failed none "platform not found"))
        requestA = { res := {}, err := some "platform not found", log := [] }) := by
  decide

/-- C4 (amended): in a pass over a kit that is neither external nor synthetic and whose
phase is `None` or `WaitingForPlatform`, no action is handled. If the computed phase is the
current one, the pass returns at once with the resolution error (none when the resolution
succeeded) and issues no patch. If it differs, the pass returns what `update` returns for
the prepared kit: the digest error and no patch, or the outcome of the single patch of the
stamped kit against the kit that was read. -/
theorem C4_bootstrap_always_returns (d : Deps) (request : Request) (inst : IntegrationKit)
    (hreach : reachesPlatformLookup d request inst) :
    handled (Reconcile d request).log = [] ∧
    (inst.Status.Phase = computedPhase d inst →
      Reconcile d request = { res := {}, err := lookupError d inst, log := [] }) ∧
    (inst.Status.Phase ≠ computedPhase d inst →
      ∀ dgst cerr, d.ComputeForIntegrationKit (bootstrapTarget d inst) = (dgst, cerr) →
        (cerr = none →
          Reconcile d request =
            { res := {},
              err := (d.Patch (stamped (bootstrapTarget d inst) dgst inst.Generation) inst).2,
              log := [.Patch (stamped (bootstrapTarget d inst) dgst inst.Generation) inst] }) ∧
        (cerr ≠ none → Reconcile d request = { res := {}, err := cerr, log := [] })) := by
  rw [Reconcile_of_reachesPlatformLookup d request inst hreach]
  obtain ⟨_, _, hext, hsyn⟩ := hreach
  simp only [bootstrap, hext, hsyn, Bool.or_self, Bool.false_eq_true, if_false,
    computedPhase, lookupError, bootstrapTarget, update_eq]
  cases hl : d.GetForResource inst with
  | found pl =>
    by_cases hr : pl.Status.Phase = .Ready
    · by_cases hp : inst.Status.Phase = .Initialization
      · simp [hr, hp, handled]
      · simp only [hr, hp, ne_eq, not_true_eq_false, not_false_eq_true, if_true, if_false]
        refine ⟨?_, by simp, ?_⟩
        · split <;> simp [handled]
        · intro _ dgst cerr hc
          rw [hc]
          cases cerr <;> simp
    · by_cases hp : inst.Status.Phase = .WaitingForPlatform
      · simp [hr, hp, handled]
      · simp only [hr, hp, ne_eq, not_true_eq_false, not_false_eq_true, if_true, if_false]
        refine ⟨?_, by simp, ?_⟩
        · split <;> simp [handled]
        · intro _ dgst cerr hc
          rw [hc]
          cases cerr <;> simp
  | failed pl err =>
    by_cases hp : inst.Status.Phase = .WaitingForPlatform
    · simp [hp, handled]
    · cases pl with
      | none =>
        simp only [hp, ne_eq, not_true_eq_false, not_false_eq_true, if_true, if_false]
        refine ⟨?_, by simp, ?_⟩
        · split <;> simp [handled]
        · intro _ dgst cerr hc
          rw [hc]
          cases cerr <;> simp
      | some pl =>
        simp only [hp, ne_eq, not_true_eq_false, not_false_eq_true, if_true, if_false]
        refine ⟨?_, by simp, ?_⟩
        · split <;> simp [handled]
        · intro _ dgst cerr hc
          rw [hc]
          cases cerr <;> simp

/-- C4 (witness): the kit `ns/a` in phase `None` with its platform ready: the phase changes,
one patch is issued and no action is handled. -/
theorem C4_bootstrap_always_returns_witness :
    reachesPlatformLookup (clusterWith (kitA .None) (.found (platformP .Ready)))
      requestA (kitA .None) ∧
    handled (Reconcile (clusterWith (kitA .None) (.found (platformP .Ready))) requestA).log
      = [] :=
  ⟨by decide,
    (C4_bootstrap_always_returns (clusterWith (kitA .None) (.found (platformP .Ready)))
      requestA (kitA .None) (by decide)).1⟩

/-- The loop of the platform map function appends, to the requests gathered so far, the
requests of the kits that wait for a ready platform, in list order. -/
theorem foldl_wakeUpStep (d : Deps) (itp : IntegrationPlatform)
    (hready : itp.Status.Phase = .Ready) (items : List IntegrationKit) :
    ∀ requests : List Request,
      items.foldl (wakeUpStep d itp) requests =
        requests ++ (items.filter (wakes d itp)).map requestFor := by
  induction items with
  | nil => intro requests; simp
  | cons kit items ih =>
    intro requests
    rw [List.foldl_cons, ih]
    have hstep : wakeUpStep d itp requests kit =
        requests ++ ((if wakes d itp kit then [kit] else []).map requestFor) := by
      unfold wakeUpStep wakes requestFor
      have hsel : ∀ (found : Option String),
          (match found with
            | some v => v != itp.Name
            | none => false) = !(found == none || found == some itp.Name) := by
        intro found
        cases found with
        | none => simp
        | some v => by_cases hv : v = itp.Name <;> simp [hv, bne]
      rw [hsel, hsel]
      cases (kit.Annotations.lookup d.PlatformSelectorAnnotation == none ||
          kit.Annotations.lookup d.PlatformSelectorAnnotation == some itp.Name) <;>
        cases (kit.Annotations.lookup d.OperatorIDAnnotation == none ||
          kit.Annotations.lookup d.OperatorIDAnnotation == some itp.Name) <;>
        by_cases hp : kit.Status.Phase = .WaitingForPlatform <;>
        simp [hready, hp]
    rw [hstep, List.filter_cons]
    by_cases hw : wakes d itp kit = true <;> simp [hw]

/-- C5: for a platform event and a successful listing of the kits of its namespace, the
map function returns the requests (namespace and name) of exactly the listed kits for which
the platform is `Ready`, the kit is in phase `WaitingForPlatform`, and each of the
platform-selector and operator-identity annotations is absent or equal to the platform's
name: one request per such kit, in list order. -/
theorem C5_wake_up_selects_waiting_kits (d : Deps) (itp : IntegrationPlatform)
    (items : List IntegrationKit) (hlist : d.List itp.Namespace = (items, none)) :
    platformMapFunc d itp = (items.filter (wakes d itp)).map requestFor := by
  unfold platformMapFunc
  by_cases hready : itp.Status.Phase = .Ready
  · simp only [hready, if_true, hlist]
    rw [foldl_wakeUpStep d itp hready]
    simp
  · have hnone : ∀ kit, wakes d itp kit = false := by
      intro kit; simp [wakes, hready]
    simp [hready, hnone]

/-- C5 (witness): the platform `ns/p` becomes ready; of the four kits of `ns` the
unannotated waiting kit and the waiting kit annotated for `p` are enqueued, in that order. -/
theorem C5_wake_up_selects_waiting_kits_witness :
    (clusterListing kitsOfNs).List (platformP .Ready).Namespace = (kitsOfNs, none) ∧
    platformMapFunc (clusterListing kitsOfNs) (platformP .Ready) =
      [ { NamespacedName := { Namespace := "ns", Name := "a" } },
        { NamespacedName := { Namespace := "ns", Name := "e" } } ] :=
  ⟨by decide,
    (C5_wake_up_selects_waiting_kits (clusterListing kitsOfNs) (platformP .Ready) kitsOfNs
      (by decide)).trans (by decide)⟩

/-- C6: the update predicate of the primary resource answers true exactly when the
generation differs between the old and the new version or the status phase differs. -/
theorem C6_update_predicate_generation_or_phase (ObjectOld ObjectNew : IntegrationKit) :
    kitUpdateFunc ObjectOld ObjectNew = true ↔
      (ObjectOld.Generation ≠ ObjectNew.Generation ∨
        ObjectOld.Status.Phase ≠ ObjectNew.Status.Phase) := by
  simp [kitUpdateFunc]

/-- Method `update` returns the empty result. -/
theorem update_res (d : Deps) (base target : IntegrationKit) :
    (update d base target).2.res = {} := by
  unfold update
  split <;> rfl

/-- The bootstrap block returns the empty result. -/
theorem bootstrap_res (d : Deps) (inst target : IntegrationKit) :
    (bootstrap d inst target).res = {} := by
  unfold bootstrap
  split
  · exact update_res _ _ _
  · simp only []
    split
    · exact update_res _ _ _
    · rfl

/-- A pass that does not reach action dispatch returns the empty result. -/
theorem Reconcile_res_of_not_reachesDispatch (d : Deps) (request : Request)
    (hnot : ¬ ∃ inst, reachesDispatch d request inst) :
    (Reconcile d request).res = {} := by
  unfold Reconcile
  rcases ha : d.IsOperatorAllowedOnNamespace request.NamespacedName.Namespace with
    ⟨ok, _ | aerr⟩
  · cases ok with
    | false => rfl
    | true =>
      simp only []
      rcases hg : d.Get request.NamespacedName with ⟨inst, _ | gerr⟩
      · simp only []
        cases hl : d.IsOperatorHandlerConsideringLock request.NamespacedName.Namespace inst
        · rfl
        · simp only [Bool.not_true, Bool.false_eq_true, if_false]
          by_cases hp : inst.Status.Phase = .None ∨ inst.Status.Phase = .WaitingForPlatform
          · simp only [hp, if_true]
            exact bootstrap_res _ _ _
          · exact absurd ⟨inst, ⟨ha, hg, hl⟩, fun h => hp (Or.inl h), fun h => hp (Or.inr h)⟩ hnot
      · simp only []
        split <;> rfl
  · cases ok <;> rfl

/-- A second is not the zero duration. -/
theorem Second_ne_zero : Second ≠ 0 := by
  decide

/-- When the patch leaves the phase of the object as it was submitted, the post-dispatch
phase after a handled action that returns a kit is the phase of the kit it returned. -/
theorem postDispatchPhase_of_patch_keeps_phase (d : Deps) (inst : IntegrationKit)
    (kind : ActionKind) (newTarget : IntegrationKit) (err : Option Err)
    (hfirst : firstMatch d inst = some kind)
    (hhandle : (actionOf d kind).Handle inst = (some newTarget, err))
    (hkeep : ∀ target base, (d.Patch target base).1.Status.Phase = target.Status.Phase) :
    postDispatchPhase d inst = newTarget.Status.Phase := by
  simp only [postDispatchPhase, hfirst, hhandle, update_eq]
  rcases d.ComputeForIntegrationKit newTarget with ⟨dgst, _ | cerr⟩
  · simp only [hkeep]
    rfl
  · rfl

/-- C7: in a pass that returns without error, the result asks for a requeue after the fixed
delay of 2 seconds exactly when the pass reaches action dispatch and the post-dispatch phase
(the phase of the non-nil result of the handled action, read from that object after `update`
has stamped it and the patch has written into it, otherwise the phase read at the start of
the pass) is `WaitingForCatalog`; in every other error-free outcome the result is the empty
one. The delay is asked through `RequeueAfter` alone: `Requeue` is never set. -/
theorem C7_requeue_after_only_for_waiting_for_catalog (d : Deps) (request : Request)
    (hok : (Reconcile d request).err = none) :
    (Reconcile d request).res.Requeue = false ∧
    ((Reconcile d request).res.RequeueAfter = 2 * Second ↔
      ∃ inst, reachesDispatch d request inst ∧
        postDispatchPhase d inst = .WaitingForCatalog) ∧
    ((Reconcile d request).res.RequeueAfter ≠ 2 * Second → (Reconcile d request).res = {}) := by
  by_cases hreach : ∃ inst, reachesDispatch d request inst
  · obtain ⟨inst, hinst⟩ := hreach
    have huniq : ∀ other, reachesDispatch d request other → other = inst := by
      intro other hother
      have h1 := hother.1.2.1
      have h2 := hinst.1.2.1
      rw [h1] at h2
      exact (Prod.mk.inj h2).1
    have hpost : (∃ other, reachesDispatch d request other ∧
        postDispatchPhase d other = .WaitingForCatalog) ↔
        postDispatchPhase d inst = .WaitingForCatalog := by
      constructor
      · rintro ⟨other, hother, hphase⟩
        rw [← huniq other hother]; exact hphase
      · intro hphase; exact ⟨inst, hinst, hphase⟩
    rw [hpost]
    rw [Reconcile_of_reachesDispatch d request inst hinst, dispatchAndRequeue_eq] at hok ⊢
    unfold postDispatchPhase
    cases hf : firstMatch d inst with
    | none =>
      by_cases hw : inst.Status.Phase = .WaitingForCatalog <;>
        simp [requeue, hw, requeueAfterDuration, Second_ne_zero]
    | some kind =>
      rw [hf] at hok
      simp only [] at hok ⊢
      rcases hh : (actionOf d kind).Handle inst with ⟨_ | newTarget, _ | err⟩
      · by_cases hw : inst.Status.Phase = .WaitingForCatalog <;>
          simp [requeue, hw, requeueAfterDuration, Second_ne_zero]
      · simp [hh] at hok
      · rw [hh] at hok
        simp only [] at hok ⊢
        rcases hc : d.ComputeForIntegrationKit newTarget with ⟨dgst, _ | cerr⟩
        · rw [hc] at hok
          simp only [] at hok ⊢
          rcases hp : d.Patch (stamped newTarget dgst inst.Generation) inst with
            ⟨written, _ | perr⟩
          · by_cases hw : written.Status.Phase = .WaitingForCatalog <;>
              simp [requeue, hw, requeueAfterDuration, Second_ne_zero, update_eq, hc, hp]
          · simp [hp] at hok
        · simp [hc] at hok
      · simp [hh] at hok
  · have hres := Reconcile_res_of_not_reachesDispatch d request hreach
    have hno : ¬ ∃ inst, reachesDispatch d request inst ∧
        postDispatchPhase d inst = .WaitingForCatalog := by
      rintro ⟨inst, hinst, _⟩
      exact hreach ⟨inst, hinst⟩
    rw [hres]
    simp [hno, Second_ne_zero]

/-- C7 (witness): the kit `ns/a` in phase `Initialization` is moved to `WaitingForCatalog`
by the Initialize action; the pass returns without error and asks for a requeue after
2 seconds. -/
theorem C7_requeue_after_only_for_waiting_for_catalog_witness :
    (Reconcile (clusterWith (kitA .Initialization) (.found (platformP .Ready)))
      requestA).err = none ∧
    (Reconcile (clusterWith (kitA .Initialization) (.found (platformP .Ready)))
      requestA).res.RequeueAfter = 2 * Second :=
  ⟨by decide,
    (C7_requeue_after_only_for_waiting_for_catalog
      (clusterWith (kitA .Initialization) (.found (platformP .Ready))) requestA
      (by decide)).2.1.mpr ⟨kitA .Initialization, by decide, by decide⟩⟩

/-- C8: when the digest of `target` is computed, `update` issues exactly one patch, taken
relative to `base`, of an object whose `Status.Digest` is that digest, whose
`Status.ObservedGeneration` is `base.Generation` and whose other fields are those of
`target`, and returns the empty result with the outcome of the patch; when the digest
computation fails, no patch is issued and the error is returned with the empty result. -/
theorem C8_update_stamps_digest_and_generation (d : Deps) (base target : IntegrationKit) :
    match d.ComputeForIntegrationKit target with
    | (dgst, none) =>
      ∃ submitted,
        (update d base target).2 =
          { res := {}, err := (d.Patch submitted base).2, log := [.Patch submitted base] } ∧
        submitted.Status.Digest = dgst ∧
        submitted.Status.ObservedGeneration = base.Generation ∧
        submitted.Status.Phase = target.Status.Phase ∧
        submitted.Status.Platform = target.Status.Platform ∧
        submitted.Status.Conditions = target.Status.Conditions ∧
        submitted.Namespace = target.Namespace ∧
        submitted.Name = target.Name ∧
        submitted.Generation = target.Generation ∧
        submitted.Annotations = target.Annotations ∧
        submitted.Spec = target.Spec
    | (_, some err) =>
      (update d base target).2 = { res := {}, err := some err, log := [] } := by
  rw [update_eq]
  rcases d.ComputeForIntegrationKit target with ⟨dgst, _ | err⟩
  · exact ⟨stamped target dgst base.Generation,
      rfl, rfl, rfl, rfl, rfl, rfl, rfl, rfl, rfl, rfl, rfl⟩
  · rfl

end integrationkit

namespace builder

/-- C9 (counterexample): the parent process starts with `DOCKER_CONFIG=/root/.docker`; a
secret is named and every step succeeds. The child is handed `DOCKER_CONFIG` with the mounted
path in the inherited parent environment, where the parent had its own value, and after `Do`
the parent's environment is empty: it is not what it was before the call. -/
theorem C9_parent_environment_changed :
    ((jibTask.Do (hostOk "sha256:deadbeef") taskWithSecret
        { env := [("DOCKER_CONFIG", "/root/.docker")] }).2.runs.map (fun cmd => cmd.Env.head?)
      = [some "DOCKER_CONFIG=/tmp/jib-secret-1"]) ∧
    (jibTask.Do (hostOk "sha256:deadbeef") taskWithSecret
        { env := [("DOCKER_CONFIG", "/root/.docker")] }).2.env = [] ∧
    (jibTask.Do (hostOk "sha256:deadbeef") taskWithSecret
        { env := [("DOCKER_CONFIG", "/root/.docker")] }).2.env
      ≠ [("DOCKER_CONFIG", "/root/.docker")] := by
  decide

/-- C9 (amended): in an execution of `Do` with a secret named in which the external child
is launched, the path returned by the mount has been written to the registry-config variable
of the parent's process-wide environment; the child is handed exactly `os.Environ()` of that
written parent environment plus `XDG_CONFIG_HOME`; and the environment `Do` leaves to the
parent is the written one, or the written one with the variable unset. -/
theorem C9_variable_written_to_parent_and_inherited (h : Host) (t : jibTask) (p : Process)
    (cmd : Cmd)
    (hsecret : t.task.Registry.Secret ≠ "")
    (hran : (jibTask.Do h t p).2.runs = p.runs ++ [cmd]) :
    LookupEnv h.JibRegistryConfigEnvVar
        (Setenv h.JibRegistryConfigEnvVar
          (h.MountSecretRegistryConfig t.build.Namespace "jib-secret-" t.task.Registry.Secret).1
          p.env) =
      some (h.MountSecretRegistryConfig t.build.Namespace "jib-secret-" t.task.Registry.Secret).1 ∧
    cmd.Env =
      Environ (Setenv h.JibRegistryConfigEnvVar
        (h.MountSecretRegistryConfig t.build.Namespace "jib-secret-" t.task.Registry.Secret).1
        p.env) ++ ["XDG_CONFIG_HOME=" ++ cmd.Dir ++ "/jib"] ∧
    ((jibTask.Do h t p).2.env =
        Setenv h.JibRegistryConfigEnvVar
          (h.MountSecretRegistryConfig t.build.Namespace "jib-secret-" t.task.Registry.Secret).1
          p.env ∨
      (jibTask.Do h t p).2.env =
        Unsetenv h.JibRegistryConfigEnvVar
          (Setenv h.JibRegistryConfigEnvVar
            (h.MountSecretRegistryConfig t.build.Namespace "jib-secret-"
              t.task.Registry.Secret).1 p.env)) := by
  obtain ⟨dir, content, _, hcmd, henv⟩ := Do_launched h t p cmd hran
  rw [mountRegistryConfig_env h t p hsecret] at henv
  refine ⟨LookupEnv_Setenv _ _ _, ?_, henv⟩
  rw [hcmd]
  simp only [mvnCommand]
  rw [mountRegistryConfig_env h t p hsecret]

/-- C9 (witness): a secret is named, the parent starts with `DOCKER_CONFIG=/root/.docker`,
and the child is launched: it is handed `DOCKER_CONFIG=/tmp/jib-secret-1` in the place where
the parent had the variable. -/
theorem C9_variable_written_to_parent_and_inherited_witness :
    (mvnCommand
      (mavenArgs hostNoDigest taskWithSecret "reg/img:base" "/workspace/maven" "clean package")
      "/workspace/maven"
      { env := [("DOCKER_CONFIG", "/tmp/jib-secret-1")], dirs := ["/tmp/jib-secret-1"] }).Env =
      ["DOCKER_CONFIG=/tmp/jib-secret-1", "XDG_CONFIG_HOME=/workspace/maven/jib"] ∧
    ((jibTask.Do hostNoDigest taskWithSecret
        { env := [("DOCKER_CONFIG", "/root/.docker")] }).2.env =
        [("DOCKER_CONFIG", "/tmp/jib-secret-1")] ∨
      (jibTask.Do hostNoDigest taskWithSecret
        { env := [("DOCKER_CONFIG", "/root/.docker")] }).2.env = []) :=
  (C9_variable_written_to_parent_and_inherited hostNoDigest taskWithSecret
    { env := [("DOCKER_CONFIG", "/root/.docker")] }
    (mvnCommand
      (mavenArgs hostNoDigest taskWithSecret "reg/img:base" "/workspace/maven" "clean package")
      "/workspace/maven"
      { env := [("DOCKER_CONFIG", "/tmp/jib-secret-1")], dirs := ["/tmp/jib-secret-1"] })
    (by decide) (by rfl)).2

end builder

namespace integrationkit

/-- C10: in a pass that reaches action dispatch and whose selected action (the first that
accepts the kit) fails in `Handle`, `Reconcile` returns that error with the empty result;
the pass issues no patch and reports the failure to the notification collaborator exactly
once, after the single `Handle`. -/
theorem C10_handle_failure_reported_not_patched (d : Deps) (request : Request)
    (inst : IntegrationKit) (kind : ActionKind) (newTarget : Option IntegrationKit) (err : Err)
    (hreach : reachesDispatch d request inst)
    (hfirst : firstMatch d inst = some kind)
    (hfail : (actionOf d kind).Handle inst = (newTarget, some err)) :
    (Reconcile d request).res = {} ∧
    (Reconcile d request).err = some err ∧
    patched (Reconcile d request).log = [] ∧
    notifiedErrors (Reconcile d request).log = [(inst, newTarget, err)] ∧
    (Reconcile d request).log =
      [.Handle kind inst, .NotifyIntegrationKitError inst newTarget err] := by
  rw [Reconcile_of_reachesDispatch d request inst hreach, dispatchAndRequeue_eq, hfirst]
  simp [hfail, patched, notifiedErrors]

/-- C10 (witness): the kit `ns/a` is `Ready` and the Monitor action fails on it. -/
theorem C10_handle_failure_reported_not_patched_witness :
    (Reconcile
        { clusterWith (kitA .Ready) (.found (platformP .Ready)) with
          NewMonitorAction := failingAction "monitor" .Ready "image not found" }
        requestA) =
      { res := {}, err := some "image not found",
        log := [.Handle .Monitor (kitA .Ready),
          .NotifyIntegrationKitError (kitA .Ready) none "image not found"] } := by
  have key := C10_handle_failure_reported_not_patched
    { clusterWith (kitA .Ready) (.found (platformP .Ready)) with
      NewMonitorAction := failingAction "monitor" .Ready "image not found" }
    requestA (kitA .Ready) .Monitor none "image not found" (by decide) (by decide) (by decide)
  obtain ⟨h1, h2, _, _, h5⟩ := key
  generalize Reconcile _ requestA = pass at h1 h2 h5 ⊢
  cases pass
  simp_all

end integrationkit

namespace builder

/-- C11 (amended): when the external command has been run, a failed command gives a failed
status with the command's error and `Image` and `Digest` unset; a successful command whose
digest file cannot be read gives a failed status with the read error and `Digest` unset, but
with `Image` already set to the target image of the task (jib.go:146). -/
theorem C11_digest_failure_keeps_target_image (h : Host) (t : jibTask) (p : Process) (cmd : Cmd)
    (hran : (jibTask.Do h t p).2.runs = p.runs ++ [cmd]) :
    (∀ myerror, h.RunAndLog cmd = some myerror →
      (jibTask.Do h t p).1 =
        { BaseImage := baseImage t, RootImage := rootImage t, Image := "", Digest := "",
          Error := some myerror }) ∧
    (∀ content errDigest, h.RunAndLog cmd = none →
      h.ReadFile (h.filepath_Join cmd.Dir h.JibDigestFile) = (content, some errDigest) →
      (jibTask.Do h t p).1 =
        { BaseImage := baseImage t, RootImage := rootImage t, Image := t.task.Image,
          Digest := "", Error := some errDigest }) := by
  rcases hd : contextDir h t with ⟨dir, _ | derr⟩
  · rcases hx : h.DirectoryExists dir with ⟨dirExists, _ | xerr⟩
    · rcases he : h.DirectoryEmpty dir with ⟨empty, _ | eerr⟩
      · by_cases hre : (!dirExists || empty) = true
        · simp [jibTask.Do, hd, hx, he, hre] at hran
        · have hq := mountRegistryConfig_runs h t p
          rcases hm : mountRegistryConfig h t p with ⟨mdir, merr, q⟩
          rw [hm] at hq
          simp only [] at hq
          cases merr with
          | some merr => simp [jibTask.Do, hd, hx, he, hre, hm, hq] at hran
          | none =>
            rcases hr : h.ReadFile (h.filepath_Join (h.strings_ReplaceAll dir h.ContextDir "maven")
              "MAVEN_CONTEXT") with ⟨content, _ | rerr⟩
            · simp only [jibTask.Do, hd, hx, he, hre, hm, hr, Bool.false_eq_true, if_false]
                at hran ⊢
              generalize hcmd : mvnCommand
                (mavenArgs h t (baseImage t) (h.strings_ReplaceAll dir h.ContextDir "maven")
                  content)
                (h.strings_ReplaceAll dir h.ContextDir "maven") q = cmd0 at hran ⊢
              have hdir0 : cmd0.Dir = h.strings_ReplaceAll dir h.ContextDir "maven" := by
                rw [← hcmd]; rfl
              have hruns := cleanRegistryConfig_runs h mdir
                { env := q.env, dirs := q.dirs, runs := q.runs ++ [cmd0] }
              generalize cleanRegistryConfig h mdir
                { env := q.env, dirs := q.dirs, runs := q.runs ++ [cmd0] } = c at hran hruns ⊢
              rcases c with ⟨cerr, cp⟩
              simp only [hq] at hruns hran
              cases hrun : h.RunAndLog cmd0 with
              | some e =>
                simp only [hrun] at hran ⊢
                have hc : cmd0 = cmd := by rw [hruns] at hran; simpa using hran
                subst hc
                refine ⟨fun myerror hme => ?_, fun _ _ hnone _ => ?_⟩
                · rw [hrun] at hme
                  cases hme
                  rfl
                · rw [hrun] at hnone
                  cases hnone
              | none =>
                simp only [hrun] at hran ⊢
                rcases hdg : h.ReadFile (h.filepath_Join
                  (h.strings_ReplaceAll dir h.ContextDir "maven") h.JibDigestFile) with
                  ⟨dg, _ | derr⟩
                · simp only [hdg] at hran ⊢
                  have hc : cmd0 = cmd := by
                    by_cases hmd : mdir = ""
                    · simpa [hmd] using hran
                    · simp only [hmd, ne_eq, not_false_eq_true, if_true] at hran
                      cases cerr with
                      | none => rw [hruns] at hran; simpa using hran
                      | some cleanErr => rw [hruns] at hran; simpa using hran
                  subst hc
                  refine ⟨fun myerror hme => ?_, fun _ _ _ hread => ?_⟩
                  · rw [hrun] at hme
                    cases hme
                  · rw [hdir0, hdg] at hread
                    cases hread
                · simp only [hdg] at hran ⊢
                  have hc : cmd0 = cmd := by rw [hruns] at hran; simpa using hran
                  subst hc
                  refine ⟨fun myerror hme => ?_, fun _ errDigest _ hread => ?_⟩
                  · rw [hrun] at hme
                    cases hme
                  · rw [hdir0, hdg] at hread
                    cases hread
                    rfl
            · simp [jibTask.Do, hd, hx, he, hre, hm, hr, hq] at hran
      · simp [jibTask.Do, hd, hx, he] at hran
    · simp [jibTask.Do, hd, hx] at hran
  · simp [jibTask.Do, hd] at hran

/-- C11 (counterexample): a secret is named, the external command is run once and exits with
status zero, and the digest file cannot be read. The status returned is failed with the read
error, but its `Image` is the target image `reg/img:new`, where the status of a failed
command has no `Image`. -/
theorem C11_digest_failure_image_set :
    (jibTask.Do hostNoDigest taskWithSecret {}).2.runs.map hostNoDigest.RunAndLog = [none] ∧
    (jibTask.Do hostNoDigest taskWithSecret {}).1.Error =
      some "open target/jib-image.digest: no such file" ∧
    (jibTask.Do hostNoDigest taskWithSecret {}).1.Digest = "" ∧
    (jibTask.Do hostNoDigest taskWithSecret {}).1.Image = "reg/img:new" ∧
    (jibTask.Do hostNoDigest taskWithSecret {}).1.Image ≠ "" ∧
    (jibTask.Do hostCommandFails taskWithSecret {}).1.Error = some "exit status 1" ∧
    (jibTask.Do hostCommandFails taskWithSecret {}).1.Image = "" := by
  decide

/-- C11 (witness): the command is run on a host without digest file. -/
theorem C11_digest_failure_keeps_target_image_witness :
    (jibTask.Do hostNoDigest taskWithSecret {}).1 =
      { BaseImage := "reg/img:base", RootImage := "reg/img:base", Image := "reg/img:new",
        Digest := "", Error := some "open target/jib-image.digest: no such file" } :=
  (C11_digest_failure_keeps_target_image hostNoDigest taskWithSecret {}
    (mvnCommand
      (mavenArgs hostNoDigest taskWithSecret "reg/img:base" "/workspace/maven" "clean package")
      "/workspace/maven"
      { env := [("DOCKER_CONFIG", "/tmp/jib-secret-1")], dirs := ["/tmp/jib-secret-1"] })
    (by rfl)).2 "" "open target/jib-image.digest: no such file" (by rfl) (by decide)

end builder

namespace integrationkit

/-- C12: a pass over a kit that is neither external nor synthetic, is in phase
`WaitingForPlatform`, and whose platform is still unavailable (the resolution fails or the
platform is not `Ready`) computes the phase the kit already has and has no effect at all: no
status patch, no action handled, no notification. It returns the empty result with the
resolution error, so the kit and the cluster are as they were for any further pass. -/
theorem C12_waiting_kit_pass_has_no_effect (d : Deps) (request : Request)
    (inst : IntegrationKit)
    (hreach : reachesPlatformLookup d request inst)
    (hphase : inst.Status.Phase = .WaitingForPlatform)
    (hunavailable : (∃ pl err, d.GetForResource inst = .failed pl err) ∨
      (∃ pl, d.GetForResource inst = .found pl ∧ pl.Status.Phase ≠ .Ready)) :
    computedPhase d inst = inst.Status.Phase ∧
    patched (Reconcile d request).log = [] ∧
    (Reconcile d request).log = [] ∧
    (Reconcile d request).res = {} ∧
    (Reconcile d request).err = lookupError d inst := by
  rw [Reconcile_of_reachesPlatformLookup d request inst hreach]
  obtain ⟨_, _, hext, hsyn⟩ := hreach
  simp only [bootstrap, hext, hsyn, Bool.or_self, Bool.false_eq_true, if_false,
    computedPhase, lookupError, hphase]
  rcases hunavailable with ⟨pl, err, hl⟩ | ⟨pl, hl, hnr⟩
  · simp [hl, patched]
  · simp [hl, hnr, patched]

/-- C12 (witness): the kit `ns/a` waits for a platform whose resolution keeps failing. -/
theorem C12_waiting_kit_pass_has_no_effect_witness :
    reachesPlatformLookup
      (clusterWith (kitA .WaitingForPlatform)
        (.failed (some (platformP (.Other "Error"))) "platform in error"))
      requestA (kitA .WaitingForPlatform) ∧
    Reconcile
      (clusterWith (kitA .WaitingForPlatform)
        (.failed (some (platformP (.Other "Error"))) "platform in error"))
      requestA = { res := {}, err := some "platform in error", log := [] } := by
  refine ⟨by decide, ?_⟩
  have key := C12_waiting_kit_pass_has_no_effect
    (clusterWith (kitA .WaitingForPlatform)
      (.failed (some (platformP (.Other "Error"))) "platform in error"))
    requestA (kitA .WaitingForPlatform) (by decide) (by decide)
    (Or.inl ⟨some (platformP (.Other "Error")), "platform in error", rfl⟩)
  obtain ⟨_, _, h3, h4, h5⟩ := key
  generalize Reconcile _ requestA = pass at h3 h4 h5 ⊢
  cases pass
  simp_all [lookupError, clusterWith]

end integrationkit

end CamelK
